import Mathlib

/-!
# Verification of the guard-demo-client agent orchestration loop

This file gives a shallow embedding of the agent orchestration loop of the
guard-demo-client repository and proves the behavioural claims about it.

The repository ships the frontend (React/TypeScript) together with design
documents (`designdocs/`, the tool-integration refactor brief, the backend
spec, and `.github/copilot-instructions.md`) that pin down the backend
orchestrator (`backend/agent.py`, `backend/lakera.py`, `backend/toolhive.py`).
The backend source itself is not in the repository snapshot, so the
orchestrator below is modelled from the specification's words, with the
structures that do appear in the repository (the refactor brief's
`toolhive.execute`, the frontend `ChatWidget`, `services/api.ts`) translated
from that source directly.

External collaborators (the LLM, the tool transports, the retrieval store,
the guardrail vendor) are oracles: pure functions supplied as parameters.
Effects of the orchestrator (which guardrail calls were made, how many LLM
calls happened, the final message list, the process-wide last-verdict cell)
are returned explicitly as observable outputs.
-/

/-- Message roles, as in the OpenAI message contract used by the backend. -/
inductive Role where
  | system
  | user
  | assistant
  | tool
deriving DecidableEq, Repr

/-- Modelled from the spec: `ToolRequest` — emitted by the LLM Client when the
model wants to call a tool (`id` vendor-issued, `name`, `argumentsRaw` an
unparsed string). -/
structure ToolRequest where
  id : String
  name : String
  argumentsRaw : String
deriving DecidableEq, Repr

/-- Modelled from the spec: `ConversationTurn` — one message in the exchange.
`toolCallId`/`toolName` are present only on tool-role turns; `toolRequests`
carries the tool calls attached to an assistant turn (the `tool_calls` field
of the OpenAI assistant message in the refactor brief). -/
structure ConversationTurn where
  role : Role
  content : String
  toolCallId : Option String := none
  toolName : Option String := none
  toolRequests : List ToolRequest := []
deriving DecidableEq, Repr

/-- Status of one tool invocation, from `toolhive.execute`. -/
inductive ToolStatus where
  | success
  | error
deriving DecidableEq, Repr

/-- Modelled from the spec: `ToolResult` — normalized output of one tool
invocation (`status`, `contentString`, `raw`); this is the
`(status, content_string, raw_result)` shape of `toolhive.execute` in the
tool-integration refactor brief. `raw` is kept as a string payload. -/
structure ToolResult where
  status : ToolStatus
  contentString : String
  raw : String
deriving DecidableEq, Repr

/-- One entry of a guardrail verdict's per-detector breakdown. -/
structure DetectorResult where
  detectorType : String
  detected : Bool
  appliesToRole : Role
deriving DecidableEq, Repr

/-- Modelled from the spec: `GuardrailVerdict` — result of one moderation
call (`flagged` plus the ordered per-detector breakdown). -/
structure GuardrailVerdict where
  flagged : Bool
  perDetector : List DetectorResult
deriving DecidableEq, Repr

/-- One entry of `AgentResult.toolTraces`: name, raw arguments and the
normalized result of a tool actually executed this turn. -/
structure ToolTrace where
  name : String
  arguments : String
  result : ToolResult
deriving DecidableEq, Repr

/-- Modelled from the spec: `AgentResult` — the orchestrator's final output
for one turn. `guardrailVerdict` is `none` when the guardrail is disabled,
has no API key, or the call failed. -/
structure AgentResult where
  response : String
  citations : List String
  toolTraces : List ToolTrace
  guardrailVerdict : Option GuardrailVerdict
deriving DecidableEq, Repr

/-- One message of the set sent to the guardrail vendor (`messages` of the
Lakera request body in LAKERA_MAPPING.md). -/
structure GuardMessage where
  role : Role
  content : String
deriving DecidableEq, Repr

/-- A retrieval hit: text plus the provenance label used for citations. -/
structure RetrievedChunk where
  text : String
  source : String
deriving DecidableEq, Repr

/-- Outcome of one LLM Client call: either a final text answer or a batch of
tool requests attached to an assistant turn (spec §6 `complete`). -/
inductive LLMOutcome where
  | finalAnswer (text : String)
  | toolCalls (requests : List ToolRequest)
deriving DecidableEq, Repr

/-- Modelled from the spec: the runtime configuration the orchestrator reads
at the start of each turn (`AppConfig` fields that the agent loop uses). -/
structure RuntimeConfig where
  systemPrompt : String
  guardrailEnabled : Bool
  blockingMode : Bool
  lakeraApiKey : Option String
  maxToolIterations : Nat
deriving DecidableEq, Repr

/-- The external collaborators of the orchestrator, as pure oracles.
`retrieve` returns `none` on a retrieval failure; `evaluate` returns `none`
when the guardrail vendor call fails (network error, timeout). -/
structure Collaborators where
  retrieve : String → Option (List RetrievedChunk)
  evaluate : List GuardMessage → Option GuardrailVerdict
  complete : List ConversationTurn → LLMOutcome
  execute : String → String → ToolResult

/-- Modelled from the spec: `lakera.check_interaction` returns the vendor
verdict, or `none` (no verdict) when no API key is configured or the vendor
call fails. -/
def check_interaction (apiKey : Option String)
    (evaluate : List GuardMessage → Option GuardrailVerdict)
    (msgs : List GuardMessage) : Option GuardrailVerdict :=
  match apiKey with
  | none => none
  | some _ => evaluate msgs

/-- Fixed notice returned when the pre-check blocks the user content. -/
def contentBlockedNotice : String :=
  "This message was blocked by the content guardrail."

/-- Fixed notice substituted when the post-check blocks the response. -/
def responseBlockedNotice : String :=
  "This response was blocked by the content guardrail."

/-- Fixed notice returned when the tool-calling sub-loop hits its cap. -/
def unableToCompleteNotice : String :=
  "Unable to complete the request."

/-- Whether a verdict forces a block: flagged while blocking mode is on.
A missing verdict never blocks. -/
def verdictBlocks (v : Option GuardrailVerdict) (blocking : Bool) : Bool :=
  match v with
  | some x => x.flagged && blocking
  | none => false

/-- The retrieval chunks used for this turn; a failed retrieval degrades to
zero context chunks (spec §4.1 failure semantics). -/
def retrievedChunks (co : Collaborators) (message : String) : List RetrievedChunk :=
  (co.retrieve message).getD []

/-- The provenance labels of the retrieval chunks, in retrieval order. -/
def retrievedCitations (co : Collaborators) (message : String) : List String :=
  (retrievedChunks co message).map (fun c => c.source)

/-- A retrieval context turn, added to the assembled message list. The
refactor brief's example flow carries RAG results as an extra system-role
message. -/
def contextTurn (c : RetrievedChunk) : ConversationTurn :=
  { role := Role.system, content := "RAG results: " ++ c.text }

/-- Modelled from the spec: message assembly (§4.1) — one system turn from
the configured system prompt, then the retrieval context turns, then the
session history, then the new user turn. -/
def assembleMessages (cfg : RuntimeConfig) (co : Collaborators)
    (history : List ConversationTurn) (message : String) : List ConversationTurn :=
  { role := Role.system, content := cfg.systemPrompt }
    :: ((retrievedChunks co message).map contextTurn
        ++ history
        ++ [{ role := Role.user, content := message }])

/-- The assistant turn carrying one round of tool requests. -/
def assistantToolTurn (reqs : List ToolRequest) : ConversationTurn :=
  { role := Role.assistant, content := "", toolRequests := reqs }

/-- The tool-role turn paired with one executed tool request: role `tool`,
content the executor's `contentString`, `toolCallId` matching the request's
id (refactor brief, Correct OpenAI Tool Flow). -/
def mkToolTurn (r : ToolRequest) (res : ToolResult) : ConversationTurn :=
  { role := Role.tool, content := res.contentString,
    toolCallId := some r.id, toolName := some r.name }

/-- The trace entry recorded for one executed tool request. -/
def mkToolTrace (r : ToolRequest) (res : ToolResult) : ToolTrace :=
  { name := r.name, arguments := r.argumentsRaw, result := res }

/-- Result of the tool-calling sub-loop: the candidate answer (`none` when
the iteration cap was reached), the extended message list, the traces of all
executed tools in execution order, and how many LLM calls were made. -/
structure LoopResult where
  answer : Option String
  messages : List ConversationTurn
  toolTraces : List ToolTrace
  llmCalls : Nat
deriving Repr

/-- Modelled from the spec: the tool-calling sub-loop (§4.1) as a bounded
iteration. Each round calls the LLM; a final answer ends the loop, a batch
of tool requests is executed in the order returned, each result appended as
a tool-role turn, and the loop repeats with the extended message list until
the iteration cap (`fuel`) is exhausted. -/
def toolLoop (complete : List ConversationTurn → LLMOutcome)
    (execute : String → String → ToolResult)
    (fuel : Nat) (messages : List ConversationTurn) : LoopResult :=
  match fuel with
  | 0 => { answer := none, messages := messages, toolTraces := [], llmCalls := 0 }
  | Nat.succ fuel =>
    match complete messages with
    | LLMOutcome.finalAnswer t =>
        { answer := some t, messages := messages, toolTraces := [], llmCalls := 1 }
    | LLMOutcome.toolCalls reqs =>
        let toolTurns := reqs.map (fun r => mkToolTurn r (execute r.name r.argumentsRaw))
        let traces := reqs.map (fun r => mkToolTrace r (execute r.name r.argumentsRaw))
        let rest := toolLoop complete execute fuel
          (messages ++ assistantToolTurn reqs :: toolTurns)
        { answer := rest.answer, messages := rest.messages,
          toolTraces := traces ++ rest.toolTraces, llmCalls := rest.llmCalls + 1 }

/-- The message set evaluated by the pre-check: only the user's new turn. -/
def preCheckMessages (message : String) : List GuardMessage :=
  [{ role := Role.user, content := message }]

/-- The message set evaluated by the post-check: the user's new turn plus
the candidate assistant answer. -/
def postCheckMessages (message candidate : String) : List GuardMessage :=
  [{ role := Role.user, content := message },
   { role := Role.assistant, content := candidate }]

/-- The pre-check verdict of a turn: evaluated only when the guardrail is
enabled, through `check_interaction`. -/
def preVerdictOf (cfg : RuntimeConfig) (co : Collaborators) (message : String) :
    Option GuardrailVerdict :=
  if cfg.guardrailEnabled then
    check_interaction cfg.lakeraApiKey co.evaluate (preCheckMessages message)
  else none

/-- The post-check verdict of a turn for a given candidate answer. -/
def postVerdictOf (cfg : RuntimeConfig) (co : Collaborators)
    (message candidate : String) : Option GuardrailVerdict :=
  if cfg.guardrailEnabled then
    check_interaction cfg.lakeraApiKey co.evaluate (postCheckMessages message candidate)
  else none

/-- Overwrite of the process-wide last-verdict cell: a guardrail call that
produced a verdict stores it; a call that produced no verdict leaves the
cell unchanged. -/
def overwriteVerdict (st v : Option GuardrailVerdict) : Option GuardrailVerdict :=
  match v with
  | some x => some x
  | none => st

/-- The observable output of one orchestrated chat turn: the `AgentResult`,
the message sets sent to the guardrail (in call order), the number of LLM
calls made, the final message list, and the last-verdict cell after the
turn. -/
structure TurnOutput where
  result : AgentResult
  guardCalls : List (List GuardMessage)
  llmCalls : Nat
  finalMessages : List ConversationTurn
  lastVerdict : Option GuardrailVerdict
deriving Repr

/-- Modelled from the spec: `runTurn` (§4.1 Agent Orchestrator, backed by
`backend/agent.py::run_agent`) — assemble the message list, pre-check the
user turn, short-circuit with the blocked notice when flagged in blocking
mode, otherwise run the tool-calling sub-loop, then post-check the candidate
answer and substitute the response-blocked notice when flagged in blocking
mode, preserving the computed tool traces and citations. The last-verdict
cell `st` is threaded explicitly and overwritten by every guardrail call
that produced a verdict. -/
def runTurn (cfg : RuntimeConfig) (co : Collaborators)
    (history : List ConversationTurn) (message : String)
    (st : Option GuardrailVerdict) : TurnOutput :=
  let assembled := assembleMessages cfg co history message
  let citations := retrievedCitations co message
  let preVerdict := preVerdictOf cfg co message
  let preCalls := if cfg.guardrailEnabled then [preCheckMessages message] else []
  let st1 := overwriteVerdict st preVerdict
  if verdictBlocks preVerdict cfg.blockingMode then
    { result := { response := contentBlockedNotice, citations := [],
                  toolTraces := [], guardrailVerdict := preVerdict },
      guardCalls := preCalls, llmCalls := 0,
      finalMessages := assembled, lastVerdict := st1 }
  else
    let loop := toolLoop co.complete co.execute cfg.maxToolIterations assembled
    match loop.answer with
    | none =>
        { result := { response := unableToCompleteNotice, citations := citations,
                      toolTraces := loop.toolTraces, guardrailVerdict := preVerdict },
          guardCalls := preCalls, llmCalls := loop.llmCalls,
          finalMessages := loop.messages, lastVerdict := st1 }
    | some candidate =>
        let postVerdict := postVerdictOf cfg co message candidate
        let postCalls :=
          if cfg.guardrailEnabled then [postCheckMessages message candidate] else []
        let st2 := overwriteVerdict st1 postVerdict
        let turnVerdict := overwriteVerdict preVerdict postVerdict
        let response :=
          if verdictBlocks postVerdict cfg.blockingMode then responseBlockedNotice
          else candidate
        { result := { response := response, citations := citations,
                      toolTraces := loop.toolTraces, guardrailVerdict := turnVerdict },
          guardCalls := preCalls ++ postCalls, llmCalls := loop.llmCalls,
          finalMessages := loop.messages, lastVerdict := st2 }

/-- `GET /lakera/last` (frontend `ApiService.getLastLakeraResult`): reads the
process-wide last-verdict cell. -/
def getLastLakeraResult (st : Option GuardrailVerdict) : Option GuardrailVerdict :=
  st

/-- One registered tool of the tool database: its name and transport type
(the refactor brief distinguishes mcp and http tools). -/
structure ToolSpec where
  name : String
  transportType : String
deriving DecidableEq, Repr

/-- `toolhive.execute` from the tool-integration refactor brief: look the
tool up by name (unknown name yields a status-error result with a
human-readable message), run its transport, and normalize the result.
The transport oracle returns `none` on a transport failure or timeout, and
argument parsing is an oracle `parseOk`; both failure paths are modelled
from the spec's failure semantics (§4.1, §7): each synthesizes a
human-readable error result rather than aborting. -/
def toolhiveExecute (db : List ToolSpec) (parseOk : String → Bool)
    (transport : ToolSpec → String → Option String)
    (name argsRaw : String) : ToolResult :=
  match db.find? (fun t => t.name == name) with
  | none =>
      { status := ToolStatus.error,
        contentString := "Unknown tool " ++ name, raw := "" }
  | some t =>
      if parseOk argsRaw then
        match transport t argsRaw with
        | none =>
            { status := ToolStatus.error,
              contentString := "Tool " ++ name ++ " failed: transport error",
              raw := "" }
        | some rawOut =>
            { status := ToolStatus.success, contentString := rawOut, raw := rawOut }
      else
        { status := ToolStatus.error,
          contentString := "Invalid arguments for tool " ++ name, raw := "" }

/-!
## Frontend `ChatWidget` model

Translated from `ChatWidget.tsx` (the chat widget component): the
`lastLakeraResult` state, its update in `handleSendMessage`, and the
`hasLakeraViolations` indicator. The `lakera` field of a `/chat` response is
`Option`-valued: `none` models an absent (or null) field, which the widget's
truthiness test skips.
-/

/-- One detector entry of a frontend `LakeraResult` breakdown. -/
structure LakeraDetector where
  detector_type : String
  detected : Bool
deriving DecidableEq, Repr

/-- The frontend `LakeraResult`: overall flag plus an optional breakdown
(the widget reads `breakdown` with optional chaining). -/
structure LakeraResult where
  flagged : Bool
  breakdown : Option (List LakeraDetector)
deriving DecidableEq, Repr

/-- The `/chat` response shape consumed by the widget (`ChatResponse` in
`types.ts`): response text, tool traces, and the optional `lakera` field. -/
structure ChatResponse where
  response : String
  tool_traces : List ToolTrace
  lakera : Option LakeraResult
deriving DecidableEq, Repr

/-- The `lastLakeraResult` update in `ChatWidget.handleSendMessage`:
`if (response.lakera) setLastLakeraResult(response.lakera)` — the stored
verdict is replaced only when the response carries a lakera field. -/
def updateLastLakeraResult (prev : Option LakeraResult) (resp : ChatResponse) :
    Option LakeraResult :=
  match resp.lakera with
  | some r => some r
  | none => prev

/-- `ChatWidget.hasLakeraViolations`: false with no stored result, else
`flagged` or any breakdown detector `detected`. -/
def hasLakeraViolations (last : Option LakeraResult) : Bool :=
  match last with
  | none => false
  | some r => r.flagged || (r.breakdown.getD []).any (fun d => d.detected)

/-!
## The tool-flow invariant

`ToolFlow` is the message-ordering contract of the LLM vendor (refactor
brief, Correct OpenAI Tool Flow): tool-role turns occur only in a contiguous
block directly after the assistant turn whose requests they answer, one turn
per request, in request order, with matching ids and names.
-/

/-- The tool-role turns `ts` answer the requests `reqs` of one assistant
round: pointwise, each turn is tool-role with the request's id and name. -/
def answersRequests (reqs : List ToolRequest) (ts : List ConversationTurn) : Prop :=
  List.Forall₂
    (fun r t => t.role = Role.tool ∧ t.toolCallId = some r.id ∧ t.toolName = some r.name)
    reqs ts

/-- Well-formed tool flow of a message list: every tool-role turn sits in
the block of answers immediately following the assistant turn that issued
its matching id; turns outside such blocks are never tool-role. -/
inductive ToolFlow : List ConversationTurn → Prop where
  | nil : ToolFlow []
  | plain (t : ConversationTurn) (rest : List ConversationTurn) :
      t.role ≠ Role.tool → t.toolRequests = [] →
      ToolFlow rest → ToolFlow (t :: rest)
  | block (t : ConversationTurn) (ts rest : List ConversationTurn) :
      t.role = Role.assistant → answersRequests t.toolRequests ts →
      ToolFlow rest → ToolFlow (t :: (ts ++ rest))

theorem ToolFlow.append {xs ys : List ConversationTurn}
    (hx : ToolFlow xs) (hy : ToolFlow ys) : ToolFlow (xs ++ ys) := by
  induction hx with
  | nil => simpa using hy
  | plain t rest h1 h2 _ ih => exact ToolFlow.plain t _ h1 h2 ih
  | block t ts rest h1 h2 _ ih =>
      have hb := ToolFlow.block t ts (rest ++ ys) h1 h2 ih
      simpa [List.append_assoc] using hb

/-- A list of plain turns (no tool-role, no pending requests) is a
well-formed tool flow. -/
theorem ToolFlow.of_plain {ms : List ConversationTurn}
    (h : ∀ t ∈ ms, t.role ≠ Role.tool ∧ t.toolRequests = []) : ToolFlow ms := by
  induction ms with
  | nil => exact ToolFlow.nil
  | cons t rest ih =>
      exact ToolFlow.plain t rest (h t (by simp)).1 (h t (by simp)).2
        (ih fun x hx => h x (by simp [hx]))

/-- The constructed tool turns of one round answer that round's requests. -/
theorem answersRequests_map (execute : String → String → ToolResult)
    (reqs : List ToolRequest) :
    answersRequests reqs
      (reqs.map (fun r => mkToolTurn r (execute r.name r.argumentsRaw))) := by
  induction reqs with
  | nil => exact List.Forall₂.nil
  | cons r rs ih => exact List.Forall₂.cons ⟨rfl, rfl, rfl⟩ ih

/-- One appended round (assistant turn plus its tool answers) is a
well-formed tool flow on its own. -/
theorem ToolFlow.round (execute : String → String → ToolResult)
    (reqs : List ToolRequest) :
    ToolFlow (assistantToolTurn reqs
      :: reqs.map (fun r => mkToolTurn r (execute r.name r.argumentsRaw))) := by
  have hb := ToolFlow.block (assistantToolTurn reqs)
    (reqs.map (fun r => mkToolTurn r (execute r.name r.argumentsRaw))) []
    rfl (answersRequests_map execute reqs) ToolFlow.nil
  simpa using hb

/-!
## Lemmas about the tool-calling sub-loop
-/

theorem toolLoop_llmCalls_le (complete : List ConversationTurn → LLMOutcome)
    (execute : String → String → ToolResult) (fuel : Nat)
    (ms : List ConversationTurn) :
    (toolLoop complete execute fuel ms).llmCalls ≤ fuel := by
  induction fuel generalizing ms with
  | zero => simp [toolLoop]
  | succ n ih =>
      unfold toolLoop
      cases complete ms with
      | finalAnswer t => simp
      | toolCalls reqs => simpa using ih _

theorem toolLoop_llmCalls_pos (complete : List ConversationTurn → LLMOutcome)
    (execute : String → String → ToolResult) (fuel : Nat)
    (ms : List ConversationTurn) (h : 1 ≤ fuel) :
    1 ≤ (toolLoop complete execute fuel ms).llmCalls := by
  cases fuel with
  | zero => exact absurd h (by simp)
  | succ n =>
      unfold toolLoop
      cases complete ms with
      | finalAnswer t => simp
      | toolCalls reqs => simp

/-- The sub-loop only ever appends to the message list, and everything it
appends is an assistant or a tool turn. -/
theorem toolLoop_messages_extend (complete : List ConversationTurn → LLMOutcome)
    (execute : String → String → ToolResult) (fuel : Nat)
    (ms : List ConversationTurn) :
    ∃ app, (toolLoop complete execute fuel ms).messages = ms ++ app ∧
      ∀ t ∈ app, t.role = Role.assistant ∨ t.role = Role.tool := by
  induction fuel generalizing ms with
  | zero => exact ⟨[], by simp [toolLoop]⟩
  | succ n ih =>
      unfold toolLoop
      cases complete ms with
      | finalAnswer t => exact ⟨[], by simp⟩
      | toolCalls reqs =>
          simp only
          obtain ⟨app, happ, hrole⟩ :=
            ih (ms ++ assistantToolTurn reqs
              :: reqs.map (fun r => mkToolTurn r (execute r.name r.argumentsRaw)))
          refine ⟨assistantToolTurn reqs
            :: reqs.map (fun r => mkToolTurn r (execute r.name r.argumentsRaw)) ++ app,
            by simpa [List.append_assoc] using happ, ?_⟩
          intro t ht
          rcases List.mem_cons.mp ht with h1 | h1
          · exact Or.inl (by simp [h1, assistantToolTurn])
          · rcases List.mem_append.mp h1 with h2 | h2
            · obtain ⟨r, _, hr⟩ := List.mem_map.mp h2
              exact Or.inr (by simp [← hr, mkToolTurn])
            · exact hrole t h2

/-- The sub-loop preserves the tool-flow invariant. -/
theorem toolLoop_toolFlow (complete : List ConversationTurn → LLMOutcome)
    (execute : String → String → ToolResult) (fuel : Nat)
    {ms : List ConversationTurn} (h : ToolFlow ms) :
    ToolFlow (toolLoop complete execute fuel ms).messages := by
  induction fuel generalizing ms with
  | zero => simpa [toolLoop] using h
  | succ n ih =>
      unfold toolLoop
      cases complete ms with
      | finalAnswer t => simpa using h
      | toolCalls reqs =>
          simp only
          exact ih (ToolFlow.append h (ToolFlow.round execute reqs))

/-- Every assistant turn the sub-loop appends carries a request list the
LLM oracle returned; hence, under the vendor guarantee that ids are unique
within a response, every turn of the resulting list has duplicate-free
request ids whenever the initial list does. -/
theorem toolLoop_ids_nodup (complete : List ConversationTurn → LLMOutcome)
    (execute : String → String → ToolResult) (fuel : Nat)
    {ms : List ConversationTurn}
    (hok : ∀ msgs reqs, complete msgs = LLMOutcome.toolCalls reqs →
      (reqs.map (fun r => r.id)).Nodup)
    (h : ∀ t ∈ ms, (t.toolRequests.map (fun r => r.id)).Nodup) :
    ∀ t ∈ (toolLoop complete execute fuel ms).messages,
      (t.toolRequests.map (fun r => r.id)).Nodup := by
  induction fuel generalizing ms with
  | zero => simpa [toolLoop] using h
  | succ n ih =>
      unfold toolLoop
      cases hc : complete ms with
      | finalAnswer t => simpa using h
      | toolCalls reqs =>
          simp only
          apply ih
          intro t ht
          rcases List.mem_append.mp ht with h1 | h1
          · exact h t h1
          · rcases List.mem_cons.mp h1 with h2 | h2
            · rw [h2]
              exact hok ms reqs hc
            · obtain ⟨r, _, hr⟩ := List.mem_map.mp h2
              simp [← hr, mkToolTurn]

/-- A string extending a nonempty literal on the right is nonempty. -/
theorem stringAppend_ne_empty (pre s : String) (h : pre.length ≠ 0) :
    (pre ++ s) ≠ "" := by
  intro he
  have h2 := congrArg String.length he
  simp [String.length_append] at h2
  exact h h2.1

/-- Every error result of `toolhiveExecute` (unknown tool, transport
failure, malformed arguments) carries a nonempty human-readable message. -/
theorem toolhiveExecute_error_nonempty (db : List ToolSpec)
    (parseOk : String → Bool) (transport : ToolSpec → String → Option String)
    (name argsRaw : String)
    (h : (toolhiveExecute db parseOk transport name argsRaw).status = ToolStatus.error) :
    (toolhiveExecute db parseOk transport name argsRaw).contentString ≠ "" := by
  unfold toolhiveExecute at h ⊢
  cases hf : db.find? (fun t => t.name == name) with
  | none =>
      simp only [hf]
      exact stringAppend_ne_empty "Unknown tool " name (by decide)
  | some t =>
      simp only [hf] at h ⊢
      by_cases hp : parseOk argsRaw
      · simp only [hp, if_true] at h ⊢
        cases htr : transport t argsRaw with
        | none =>
            simp only [htr]
            intro he
            have h2 := congrArg String.length he
            simp [String.length_append] at h2
            exact absurd h2.2 (by decide)
        | some rawOut =>
            rw [htr] at h
            exact absurd h (by simp)
      · simp only [hp, if_false]
        exact stringAppend_ne_empty "Invalid arguments for tool " name (by decide)

/-!
## Shape lemmas: the three outcomes of one turn
-/

/-- A blocking pre-check short-circuits the turn. -/
theorem runTurn_blocked_eq (cfg : RuntimeConfig) (co : Collaborators)
    (history : List ConversationTurn) (message : String)
    (st : Option GuardrailVerdict)
    (h : verdictBlocks (preVerdictOf cfg co message) cfg.blockingMode = true) :
    runTurn cfg co history message st =
      { result := { response := contentBlockedNotice, citations := [],
                    toolTraces := [], guardrailVerdict := preVerdictOf cfg co message },
        guardCalls := if cfg.guardrailEnabled then [preCheckMessages message] else [],
        llmCalls := 0,
        finalMessages := assembleMessages cfg co history message,
        lastVerdict := overwriteVerdict st (preVerdictOf cfg co message) } := by
  unfold runTurn
  simp [h]

/-- When the pre-check does not block and the sub-loop hits its cap, the
turn returns the unable-to-complete notice with everything computed so far. -/
theorem runTurn_cap_eq (cfg : RuntimeConfig) (co : Collaborators)
    (history : List ConversationTurn) (message : String)
    (st : Option GuardrailVerdict)
    (hnb : verdictBlocks (preVerdictOf cfg co message) cfg.blockingMode = false)
    (hans : (toolLoop co.complete co.execute cfg.maxToolIterations
      (assembleMessages cfg co history message)).answer = none) :
    runTurn cfg co history message st =
      { result := { response := unableToCompleteNotice,
                    citations := retrievedCitations co message,
                    toolTraces := (toolLoop co.complete co.execute cfg.maxToolIterations
                      (assembleMessages cfg co history message)).toolTraces,
                    guardrailVerdict := preVerdictOf cfg co message },
        guardCalls := if cfg.guardrailEnabled then [preCheckMessages message] else [],
        llmCalls := (toolLoop co.complete co.execute cfg.maxToolIterations
          (assembleMessages cfg co history message)).llmCalls,
        finalMessages := (toolLoop co.complete co.execute cfg.maxToolIterations
          (assembleMessages cfg co history message)).messages,
        lastVerdict := overwriteVerdict st (preVerdictOf cfg co message) } := by
  unfold runTurn
  simp [hnb, hans]

/-- When the pre-check does not block and the sub-loop produced a candidate
answer, the turn post-checks it and substitutes the blocked notice exactly
when that verdict blocks. -/
theorem runTurn_answer_eq (cfg : RuntimeConfig) (co : Collaborators)
    (history : List ConversationTurn) (message : String)
    (st : Option GuardrailVerdict) (candidate : String)
    (hnb : verdictBlocks (preVerdictOf cfg co message) cfg.blockingMode = false)
    (hans : (toolLoop co.complete co.execute cfg.maxToolIterations
      (assembleMessages cfg co history message)).answer = some candidate) :
    runTurn cfg co history message st =
      { result := { response :=
                      if verdictBlocks (postVerdictOf cfg co message candidate)
                          cfg.blockingMode then responseBlockedNotice
                      else candidate,
                    citations := retrievedCitations co message,
                    toolTraces := (toolLoop co.complete co.execute cfg.maxToolIterations
                      (assembleMessages cfg co history message)).toolTraces,
                    guardrailVerdict := overwriteVerdict (preVerdictOf cfg co message)
                      (postVerdictOf cfg co message candidate) },
        guardCalls := (if cfg.guardrailEnabled then [preCheckMessages message] else [])
          ++ (if cfg.guardrailEnabled then [postCheckMessages message candidate] else []),
        llmCalls := (toolLoop co.complete co.execute cfg.maxToolIterations
          (assembleMessages cfg co history message)).llmCalls,
        finalMessages := (toolLoop co.complete co.execute cfg.maxToolIterations
          (assembleMessages cfg co history message)).messages,
        lastVerdict := overwriteVerdict (overwriteVerdict st (preVerdictOf cfg co message))
          (postVerdictOf cfg co message candidate) } := by
  unfold runTurn
  simp [hnb, hans]

/-!
## Claim theorems
-/

theorem preCheckMessages_no_system (message : String) :
    ∀ m ∈ preCheckMessages message, m.role ≠ Role.system := by
  simp [preCheckMessages]

theorem postCheckMessages_no_system (message candidate : String) :
    ∀ m ∈ postCheckMessages message candidate, m.role ≠ Role.system := by
  simp [postCheckMessages]

/-- C1: when the guardrail is enabled, blocking mode is on and the
pre-check verdict is flagged, `runTurn` terminates the turn without any LLM
call and returns the fixed content-blocked notice with empty tool traces,
empty citations, and the pre-check verdict. -/
theorem c1_precheck_block (cfg : RuntimeConfig) (co : Collaborators)
    (history : List ConversationTurn) (message : String)
    (st : Option GuardrailVerdict) (v : GuardrailVerdict)
    (_hen : cfg.guardrailEnabled = true)
    (hblock : cfg.blockingMode = true)
    (hpre : preVerdictOf cfg co message = some v)
    (hflag : v.flagged = true) :
    (runTurn cfg co history message st).result =
      { response := contentBlockedNotice, citations := [], toolTraces := [],
        guardrailVerdict := some v } ∧
    (runTurn cfg co history message st).llmCalls = 0 := by
  have hb : verdictBlocks (preVerdictOf cfg co message) cfg.blockingMode = true := by
    simp [verdictBlocks, hpre, hflag, hblock]
  rw [runTurn_blocked_eq cfg co history message st hb]
  simp [hpre]

/-- An always-flagging guardrail verdict, for concrete runs. -/
def flaggedVerdict : GuardrailVerdict := { flagged := true, perDetector := [] }

def cfgC1 : RuntimeConfig :=
  { systemPrompt := "You are helpful.", guardrailEnabled := true,
    blockingMode := true, lakeraApiKey := some "key", maxToolIterations := 3 }

def coC1 : Collaborators :=
  { retrieve := fun _ => some [],
    evaluate := fun _ => some flaggedVerdict,
    complete := fun _ => LLMOutcome.finalAnswer "hello",
    execute := fun _ _ =>
      { status := ToolStatus.success, contentString := "ok", raw := "ok" } }

/-- Witness for C1 at a concrete flagged turn. -/
theorem c1_precheck_block_witness :
    (runTurn cfgC1 coC1 [] "attack" none).result =
      { response := contentBlockedNotice, citations := [], toolTraces := [],
        guardrailVerdict := some flaggedVerdict } ∧
    (runTurn cfgC1 coC1 [] "attack" none).llmCalls = 0 :=
  c1_precheck_block cfgC1 coC1 [] "attack" none flaggedVerdict rfl rfl rfl rfl

/-- C2: every guardrail call of a turn evaluates either exactly the user's
new turn (pre-check) or exactly the user's new turn plus the candidate
assistant answer (post-check); no evaluated message set ever contains a
system-role turn, so the system prompt is never sent to the guardrail. -/
theorem c2_guard_excludes_system_prompt (cfg : RuntimeConfig)
    (co : Collaborators) (history : List ConversationTurn) (message : String)
    (st : Option GuardrailVerdict) :
    ∀ g ∈ (runTurn cfg co history message st).guardCalls,
      (g = preCheckMessages message ∨ ∃ a, g = postCheckMessages message a) ∧
      ∀ m ∈ g, m.role ≠ Role.system := by
  intro g hg
  by_cases hb : verdictBlocks (preVerdictOf cfg co message) cfg.blockingMode = true
  · rw [runTurn_blocked_eq cfg co history message st hb] at hg
    simp only at hg
    by_cases he : cfg.guardrailEnabled = true
    · simp [he] at hg
      exact ⟨Or.inl hg, hg ▸ preCheckMessages_no_system message⟩
    · simp [he] at hg
  · have hb' : verdictBlocks (preVerdictOf cfg co message) cfg.blockingMode = false :=
      Bool.eq_false_iff.mpr hb
    cases hans : (toolLoop co.complete co.execute cfg.maxToolIterations
        (assembleMessages cfg co history message)).answer with
    | none =>
        rw [runTurn_cap_eq cfg co history message st hb' hans] at hg
        simp only at hg
        by_cases he : cfg.guardrailEnabled = true
        · simp [he] at hg
          exact ⟨Or.inl hg, hg ▸ preCheckMessages_no_system message⟩
        · simp [he] at hg
    | some candidate =>
        rw [runTurn_answer_eq cfg co history message st candidate hb' hans] at hg
        simp only at hg
        by_cases he : cfg.guardrailEnabled = true
        · simp [he] at hg
          rcases hg with hg | hg
          · exact ⟨Or.inl hg, hg ▸ preCheckMessages_no_system message⟩
          · exact ⟨Or.inr ⟨candidate, hg⟩,
              hg ▸ postCheckMessages_no_system message candidate⟩
        · simp [he] at hg

/-- C3: when a candidate answer was produced and the post-check flags it in
blocking mode, only the response is replaced by the fixed notice; the tool
traces and citations are exactly the values computed before the post-check,
and the verdict is the post-check verdict. -/
theorem c3_postcheck_preserves_traces (cfg : RuntimeConfig) (co : Collaborators)
    (history : List ConversationTurn) (message : String)
    (st : Option GuardrailVerdict) (candidate : String) (v : GuardrailVerdict)
    (hnb : verdictBlocks (preVerdictOf cfg co message) cfg.blockingMode = false)
    (hans : (toolLoop co.complete co.execute cfg.maxToolIterations
      (assembleMessages cfg co history message)).answer = some candidate)
    (hpost : postVerdictOf cfg co message candidate = some v)
    (hflag : v.flagged = true)
    (hblock : cfg.blockingMode = true) :
    (runTurn cfg co history message st).result.response = responseBlockedNotice ∧
    (runTurn cfg co history message st).result.toolTraces =
      (toolLoop co.complete co.execute cfg.maxToolIterations
        (assembleMessages cfg co history message)).toolTraces ∧
    (runTurn cfg co history message st).result.citations =
      retrievedCitations co message ∧
    (runTurn cfg co history message st).result.guardrailVerdict = some v := by
  have hb : verdictBlocks (postVerdictOf cfg co message candidate)
      cfg.blockingMode = true := by
    simp [verdictBlocks, hpost, hflag, hblock]
  rw [runTurn_answer_eq cfg co history message st candidate hnb hans]
  rw [hpost] at hb
  simp [hb, hpost, overwriteVerdict]

def cfgC3 : RuntimeConfig :=
  { systemPrompt := "You are helpful.", guardrailEnabled := true,
    blockingMode := true, lakeraApiKey := some "key", maxToolIterations := 3 }

/-- Collaborators whose guardrail flags only message sets that contain an
assistant turn: the pre-check passes and the post-check flags. -/
def coC3 : Collaborators :=
  { retrieve := fun _ => some [{ text := "ctx", source := "docA" }],
    evaluate := fun msgs =>
      some { flagged := msgs.any (fun m => m.role == Role.assistant),
             perDetector := [] },
    complete := fun _ => LLMOutcome.finalAnswer "candidate",
    execute := fun _ _ =>
      { status := ToolStatus.success, contentString := "ok", raw := "ok" } }

/-- Witness for C3 at a concrete post-check-flagged turn. -/
theorem c3_postcheck_preserves_traces_witness :
    (runTurn cfgC3 coC3 [] "question" none).result.response
      = responseBlockedNotice ∧
    (runTurn cfgC3 coC3 [] "question" none).result.toolTraces =
      (toolLoop coC3.complete coC3.execute cfgC3.maxToolIterations
        (assembleMessages cfgC3 coC3 [] "question")).toolTraces ∧
    (runTurn cfgC3 coC3 [] "question" none).result.citations =
      retrievedCitations coC3 "question" ∧
    (runTurn cfgC3 coC3 [] "question" none).result.guardrailVerdict =
      some { flagged := true, perDetector := [] } :=
  c3_postcheck_preserves_traces cfgC3 coC3 [] "question" none "candidate"
    { flagged := true, perDetector := [] } rfl rfl rfl rfl rfl

/-- Witness for C2: the pre-check call of a concrete turn contains the user
turn, whose role is not system. -/
theorem c2_guard_excludes_system_prompt_witness :
    ({ role := Role.user, content := "question" } : GuardMessage).role ≠ Role.system :=
  (c2_guard_excludes_system_prompt cfgC3 coC3 [] "question" none
    (preCheckMessages "question") (by decide)).2
    { role := Role.user, content := "question" } (by decide)


/-- On a turn the pre-check did not block, the final message list and the
LLM call count are those of the tool-calling sub-loop. -/
theorem runTurn_not_blocked_loop (cfg : RuntimeConfig) (co : Collaborators)
    (history : List ConversationTurn) (message : String)
    (st : Option GuardrailVerdict)
    (hnb : verdictBlocks (preVerdictOf cfg co message) cfg.blockingMode = false) :
    (runTurn cfg co history message st).finalMessages =
      (toolLoop co.complete co.execute cfg.maxToolIterations
        (assembleMessages cfg co history message)).messages ∧
    (runTurn cfg co history message st).llmCalls =
      (toolLoop co.complete co.execute cfg.maxToolIterations
        (assembleMessages cfg co history message)).llmCalls := by
  cases hans : (toolLoop co.complete co.execute cfg.maxToolIterations
      (assembleMessages cfg co history message)).answer with
  | none => rw [runTurn_cap_eq cfg co history message st hnb hans]; exact ⟨rfl, rfl⟩
  | some candidate =>
      rw [runTurn_answer_eq cfg co history message st candidate hnb hans]
      exact ⟨rfl, rfl⟩

/-- Every turn of the initial assembly is plain: not tool-role and with no
pending tool requests, provided the session history is. -/
theorem assembleMessages_plain (cfg : RuntimeConfig) (co : Collaborators)
    (history : List ConversationTurn) (message : String)
    (hhist : ∀ t ∈ history, t.role ≠ Role.tool ∧ t.toolRequests = []) :
    ∀ t ∈ assembleMessages cfg co history message,
      t.role ≠ Role.tool ∧ t.toolRequests = [] := by
  intro t ht
  simp only [assembleMessages, List.mem_cons, List.mem_append, List.mem_map,
    List.mem_singleton, List.not_mem_nil, or_false] at ht
  rcases ht with rfl | ⟨c, hc, rfl⟩ | hmem | rfl
  · exact ⟨by simp, rfl⟩
  · exact ⟨by simp [contextTurn], rfl⟩
  · rename_i hmem
    exact hhist t hmem
  · exact ⟨by simp, rfl⟩

/-- C4: in the final message list of a turn, every tool-role turn lies in
the answer block directly after the assistant turn that issued its matching
`toolCallId` (one answer per request, in request order, ids and names
matching — the `ToolFlow` invariant); request ids are duplicate-free within
each assistant turn; and nothing appended beyond the initial assembly is a
system-role message, so tool results are never appended as system turns. -/
theorem c4_message_ordering (cfg : RuntimeConfig) (co : Collaborators)
    (history : List ConversationTurn) (message : String)
    (st : Option GuardrailVerdict)
    (hhist : ∀ t ∈ history, t.role ≠ Role.tool ∧ t.toolRequests = [])
    (hids : ∀ msgs reqs, co.complete msgs = LLMOutcome.toolCalls reqs →
      (reqs.map (fun r => r.id)).Nodup) :
    ToolFlow (runTurn cfg co history message st).finalMessages ∧
    (∀ t ∈ (runTurn cfg co history message st).finalMessages,
      (t.toolRequests.map (fun r => r.id)).Nodup) ∧
    ∃ app, (runTurn cfg co history message st).finalMessages =
        assembleMessages cfg co history message ++ app ∧
      ∀ t ∈ app, t.role ≠ Role.system := by
  have hasm := assembleMessages_plain cfg co history message hhist
  have hflow : ToolFlow (assembleMessages cfg co history message) :=
    ToolFlow.of_plain hasm
  by_cases hb : verdictBlocks (preVerdictOf cfg co message) cfg.blockingMode = true
  · rw [runTurn_blocked_eq cfg co history message st hb]
    refine ⟨hflow, ?_, [], by simp, by simp⟩
    intro t ht
    rw [(hasm t ht).2]
    simp
  · have hb' : verdictBlocks (preVerdictOf cfg co message) cfg.blockingMode = false :=
      Bool.eq_false_iff.mpr hb
    rcases runTurn_not_blocked_loop cfg co history message st hb' with ⟨hfm, _⟩
    rw [hfm]
    refine ⟨toolLoop_toolFlow co.complete co.execute cfg.maxToolIterations hflow,
      toolLoop_ids_nodup co.complete co.execute cfg.maxToolIterations hids ?_, ?_⟩
    · intro t ht
      rw [(hasm t ht).2]
      simp
    · obtain ⟨app, happ, hrole⟩ := toolLoop_messages_extend co.complete co.execute
        cfg.maxToolIterations (assembleMessages cfg co history message)
      refine ⟨app, happ, ?_⟩
      intro t ht
      rcases hrole t ht with h | h <;> simp [h]

def reqC4 : ToolRequest := { id := "call1", name := "math", argumentsRaw := "add 2 2" }

def cfgC4 : RuntimeConfig :=
  { systemPrompt := "sys", guardrailEnabled := false, blockingMode := false,
    lakeraApiKey := none, maxToolIterations := 4 }

/-- Collaborators whose LLM requests one tool call on the first round and
answers on the second. -/
def coC4 : Collaborators :=
  { retrieve := fun _ => some [],
    evaluate := fun _ => none,
    complete := fun ms =>
      if ms.length ≤ 2 then LLMOutcome.toolCalls [reqC4]
      else LLMOutcome.finalAnswer "4",
    execute := fun _ _ =>
      { status := ToolStatus.success, contentString := "4", raw := "4" } }

/-- Witness for C4 at a concrete turn with one round of tool calls. -/
theorem c4_message_ordering_witness :
    ToolFlow (runTurn cfgC4 coC4 [] "What is 2+2?" none).finalMessages :=
  (c4_message_ordering cfgC4 coC4 [] "What is 2+2?" none
    (by simp)
    (by
      intro msgs reqs h
      simp only [coC4] at h
      split at h
      · cases h
        simp
      · cases h)).1

/-- One round of the sub-loop when the LLM requests tool calls: the
assistant turn and its tool answers are appended and the loop continues. -/
theorem toolLoop_succ_toolCalls (complete : List ConversationTurn → LLMOutcome)
    (execute : String → String → ToolResult) (fuel : Nat)
    (ms : List ConversationTurn) (reqs : List ToolRequest)
    (h : complete ms = LLMOutcome.toolCalls reqs) :
    toolLoop complete execute (fuel + 1) ms =
      { answer := (toolLoop complete execute fuel
          (ms ++ assistantToolTurn reqs
            :: reqs.map (fun r => mkToolTurn r (execute r.name r.argumentsRaw)))).answer,
        messages := (toolLoop complete execute fuel
          (ms ++ assistantToolTurn reqs
            :: reqs.map (fun r => mkToolTurn r (execute r.name r.argumentsRaw)))).messages,
        toolTraces := reqs.map (fun r => mkToolTrace r (execute r.name r.argumentsRaw))
          ++ (toolLoop complete execute fuel
            (ms ++ assistantToolTurn reqs
              :: reqs.map (fun r => mkToolTurn r (execute r.name r.argumentsRaw)))).toolTraces,
        llmCalls := (toolLoop complete execute fuel
          (ms ++ assistantToolTurn reqs
            :: reqs.map (fun r => mkToolTurn r (execute r.name r.argumentsRaw)))).llmCalls
          + 1 } := by
  conv_lhs => rw [toolLoop]
  simp [h]

/-- The number of tool rounds a message list records: each round of the
sub-loop appends exactly one assistant turn, and nothing else appended is
assistant-role. -/
def assistantRounds (ms : List ConversationTurn) : Nat :=
  ms.countP (fun t => t.role == Role.assistant)

theorem assistantRounds_append (xs ys : List ConversationTurn) :
    assistantRounds (xs ++ ys) = assistantRounds xs + assistantRounds ys :=
  List.countP_append _ _ _

/-- One appended round contributes exactly one assistant turn. -/
theorem assistantRounds_round (execute : String → String → ToolResult)
    (reqs : List ToolRequest) :
    assistantRounds (assistantToolTurn reqs
      :: reqs.map (fun r => mkToolTurn r (execute r.name r.argumentsRaw))) = 1 := by
  simp only [assistantRounds, List.countP_cons]
  rw [List.countP_eq_zero.mpr]
  · simp [assistantToolTurn]
  · intro t ht
    obtain ⟨r, _, rfl⟩ := List.mem_map.mp ht
    simp [mkToolTurn]

/-- LLM-call accounting of the sub-loop: when the loop converges, it made
one more LLM call than it ran tool rounds — every round, error results
included, was followed by another LLM call on the extended message list.
When the cap was exhausted, calls equal rounds: the final round's results
were appended but no further call happened. -/
theorem toolLoop_calls_rounds (complete : List ConversationTurn → LLMOutcome)
    (execute : String → String → ToolResult) (fuel : Nat)
    (ms : List ConversationTurn) :
    ((toolLoop complete execute fuel ms).answer.isSome →
      assistantRounds (toolLoop complete execute fuel ms).messages + 1 =
        assistantRounds ms + (toolLoop complete execute fuel ms).llmCalls) ∧
    ((toolLoop complete execute fuel ms).answer = none →
      assistantRounds (toolLoop complete execute fuel ms).messages =
        assistantRounds ms + (toolLoop complete execute fuel ms).llmCalls) := by
  induction fuel generalizing ms with
  | zero => simp [toolLoop]
  | succ n ih =>
      unfold toolLoop
      cases hc : complete ms with
      | finalAnswer t => simp
      | toolCalls reqs =>
          simp only
          obtain ⟨ih1, ih2⟩ := ih (ms ++ assistantToolTurn reqs
            :: reqs.map (fun r => mkToolTurn r (execute r.name r.argumentsRaw)))
          rw [assistantRounds_append, assistantRounds_round] at ih1 ih2
          constructor
          · intro hs
            have h := ih1 hs
            omega
          · intro hn
            have h := ih2 hn
            omega

/-- Every tool trace the sub-loop records, in any round, is the executor's
output for that trace's name and arguments, and a tool-role turn carrying
its `contentString` under that tool name is in the loop's message list. -/
theorem toolLoop_traces_faithful (complete : List ConversationTurn → LLMOutcome)
    (execute : String → String → ToolResult) (fuel : Nat)
    (ms : List ConversationTurn) :
    ∀ tr ∈ (toolLoop complete execute fuel ms).toolTraces,
      tr.result = execute tr.name tr.arguments ∧
      ∃ t ∈ (toolLoop complete execute fuel ms).messages,
        t.role = Role.tool ∧ t.toolName = some tr.name ∧
        t.content = tr.result.contentString := by
  induction fuel generalizing ms with
  | zero => simp [toolLoop]
  | succ n ih =>
      unfold toolLoop
      cases hc : complete ms with
      | finalAnswer t => simp
      | toolCalls reqs =>
          simp only
          intro tr htr
          rcases List.mem_append.mp htr with h1 | h1
          · obtain ⟨r, hr, rfl⟩ := List.mem_map.mp h1
            refine ⟨rfl, ?_⟩
            obtain ⟨app, happ, _⟩ := toolLoop_messages_extend complete execute n
              (ms ++ assistantToolTurn reqs
                :: reqs.map (fun q => mkToolTurn q (execute q.name q.argumentsRaw)))
            refine ⟨mkToolTurn r (execute r.name r.argumentsRaw), ?_, rfl, rfl, rfl⟩
            rw [happ]
            refine List.mem_append_left _ (List.mem_append_right _ ?_)
            exact List.mem_cons_of_mem _ (List.mem_map.mpr ⟨r, hr, rfl⟩)
          · exact ih _ tr h1

/-- On a turn the pre-check did not block, the returned tool traces are
those of the sub-loop. -/
theorem runTurn_not_blocked_traces (cfg : RuntimeConfig) (co : Collaborators)
    (history : List ConversationTurn) (message : String)
    (st : Option GuardrailVerdict)
    (hnb : verdictBlocks (preVerdictOf cfg co message) cfg.blockingMode = false) :
    (runTurn cfg co history message st).result.toolTraces =
      (toolLoop co.complete co.execute cfg.maxToolIterations
        (assembleMessages cfg co history message)).toolTraces := by
  cases hans : (toolLoop co.complete co.execute cfg.maxToolIterations
      (assembleMessages cfg co history message)).answer with
  | none => rw [runTurn_cap_eq cfg co history message st hnb hans]
  | some candidate =>
      rw [runTurn_answer_eq cfg co history message st candidate hnb hans]

def reqC5c : ToolRequest := { id := "c9", name := "ghost", argumentsRaw := "x" }

def cfgC5c : RuntimeConfig :=
  { systemPrompt := "sys", guardrailEnabled := false, blockingMode := false,
    lakeraApiKey := none, maxToolIterations := 1 }

/-- Collaborators whose LLM always requests an unknown tool, over an
iteration cap of one: the single permitted round executes the erroring tool
and the cap is then exhausted. -/
def coC5c : Collaborators :=
  { retrieve := fun _ => some [],
    evaluate := fun _ => none,
    complete := fun _ => LLMOutcome.toolCalls [reqC5c],
    execute := toolhiveExecute [] (fun _ => true) (fun _ _ => none) }

/-- C5 counterexample: at the iteration-cap boundary, a tool invocation
with a status-error result is executed and its tool-role turn appended, yet
the LLM Client is not invoked again afterward — the whole turn makes
exactly one LLM call. This refutes the claim's unconditional clause that
after every error invocation the LLM Client is invoked again. -/
theorem c5_counterexample :
    (coC5c.execute reqC5c.name reqC5c.argumentsRaw).status = ToolStatus.error ∧
    mkToolTurn reqC5c (coC5c.execute reqC5c.name reqC5c.argumentsRaw)
        ∈ (runTurn cfgC5c coC5c [] "go" none).finalMessages ∧
    (runTurn cfgC5c coC5c [] "go" none).llmCalls = 1 := by
  decide

/-- C5 (amended): for every tool invocation recorded in a turn — in any
round of the sub-loop — the recorded result is exactly the Tool Executor's
output, a tool-role turn carrying its `contentString` (a string by
construction, never a raw exception object) is in the final message list,
and with `toolhiveExecute` as executor every status-error result's string
is nonempty (unknown tool, transport failure, malformed arguments alike).
The LLM Client is invoked again after every completed tool round except the
one that exhausts the iteration cap: a converged loop made one more LLM
call than it ran tool rounds, a cap-exhausted loop exactly as many. -/
theorem c5_tool_error_rounds (cfg : RuntimeConfig) (co : Collaborators)
    (history : List ConversationTurn) (message : String)
    (st : Option GuardrailVerdict) (db : List ToolSpec)
    (parseOk : String → Bool) (transport : ToolSpec → String → Option String)
    (hexec : co.execute = toolhiveExecute db parseOk transport)
    (hnb : verdictBlocks (preVerdictOf cfg co message) cfg.blockingMode = false) :
    (∀ tr ∈ (runTurn cfg co history message st).result.toolTraces,
      tr.result = co.execute tr.name tr.arguments ∧
      (tr.result.status = ToolStatus.error → tr.result.contentString ≠ "") ∧
      ∃ t ∈ (runTurn cfg co history message st).finalMessages,
        t.role = Role.tool ∧ t.toolName = some tr.name ∧
        t.content = tr.result.contentString) ∧
    ((toolLoop co.complete co.execute cfg.maxToolIterations
        (assembleMessages cfg co history message)).answer.isSome →
      assistantRounds (runTurn cfg co history message st).finalMessages + 1 =
        assistantRounds (assembleMessages cfg co history message) +
          (runTurn cfg co history message st).llmCalls) ∧
    ((toolLoop co.complete co.execute cfg.maxToolIterations
        (assembleMessages cfg co history message)).answer = none →
      assistantRounds (runTurn cfg co history message st).finalMessages =
        assistantRounds (assembleMessages cfg co history message) +
          (runTurn cfg co history message st).llmCalls) := by
  obtain ⟨hfm, hlc⟩ := runTurn_not_blocked_loop cfg co history message st hnb
  have htr := runTurn_not_blocked_traces cfg co history message st hnb
  rw [hfm, hlc, htr]
  refine ⟨?_,
    (toolLoop_calls_rounds co.complete co.execute cfg.maxToolIterations
      (assembleMessages cfg co history message)).1,
    (toolLoop_calls_rounds co.complete co.execute cfg.maxToolIterations
      (assembleMessages cfg co history message)).2⟩
  intro tr htrm
  obtain ⟨h1, h2⟩ := toolLoop_traces_faithful co.complete co.execute
    cfg.maxToolIterations (assembleMessages cfg co history message) tr htrm
  refine ⟨h1, ?_, h2⟩
  intro herr
  rw [h1, hexec] at herr ⊢
  exact toolhiveExecute_error_nonempty db parseOk transport tr.name tr.arguments herr

def reqC5a : ToolRequest := { id := "c1", name := "calc", argumentsRaw := "2+2" }

def reqC5b : ToolRequest := { id := "c2", name := "ghost", argumentsRaw := "x" }

def dbC5 : List ToolSpec := [{ name := "calc", transportType := "http" }]

def cfgC5 : RuntimeConfig :=
  { systemPrompt := "sys", guardrailEnabled := false, blockingMode := false,
    lakeraApiKey := none, maxToolIterations := 4 }

/-- Collaborators whose LLM requests a known tool in the first round, an
unknown tool in the second round, then answers: the error invocation sits
in a later round, not the first. -/
def coC5 : Collaborators :=
  { retrieve := fun _ => some [],
    evaluate := fun _ => none,
    complete := fun ms =>
      if ms.length ≤ 2 then LLMOutcome.toolCalls [reqC5a]
      else if ms.length ≤ 4 then LLMOutcome.toolCalls [reqC5b]
      else LLMOutcome.finalAnswer "done",
    execute := toolhiveExecute [{ name := "calc", transportType := "http" }]
      (fun _ => true)
      (fun t _ => if t.name == "calc" then some "4" else none) }

/-- Witness for the amended C5: a second-round unknown-tool invocation is
recorded with a status-error result whose message is nonempty. -/
theorem c5_tool_error_rounds_witness :
    mkToolTrace reqC5b (coC5.execute reqC5b.name reqC5b.argumentsRaw)
        ∈ (runTurn cfgC5 coC5 [] "hi" none).result.toolTraces ∧
    (mkToolTrace reqC5b (coC5.execute reqC5b.name reqC5b.argumentsRaw)).result.status
        = ToolStatus.error ∧
    (mkToolTrace reqC5b (coC5.execute reqC5b.name reqC5b.argumentsRaw)).result.contentString
        ≠ "" := by
  have h := c5_tool_error_rounds cfgC5 coC5 [] "hi" none
    [{ name := "calc", transportType := "http" }] (fun _ => true)
    (fun t _ => if t.name == "calc" then some "4" else none) rfl rfl
  refine ⟨by decide, by decide, ?_⟩
  exact (h.1 (mkToolTrace reqC5b (coC5.execute reqC5b.name reqC5b.argumentsRaw))
    (by decide)).2.1 (by decide)


/-- `check_interaction` yields no verdict when no API key is configured or
when every vendor call fails. -/
theorem check_interaction_no_verdict (apiKey : Option String)
    (evaluate : List GuardMessage → Option GuardrailVerdict)
    (msgs : List GuardMessage)
    (h : apiKey = none ∨ ∀ ms, evaluate ms = none) :
    check_interaction apiKey evaluate msgs = none := by
  rcases h with h | h
  · simp [check_interaction, h]
  · cases apiKey <;> simp [check_interaction, h]

/-- C6: when the guardrail call fails (all vendor calls error out) or no
guardrail API key is configured, the turn still completes: the returned
`AgentResult` carries a null verdict — distinguishable from an evaluated
clean verdict — and the LLM is still called. -/
theorem c6_guardrail_failure_nonfatal (cfg : RuntimeConfig) (co : Collaborators)
    (history : List ConversationTurn) (message : String)
    (st : Option GuardrailVerdict)
    (hfail : cfg.lakeraApiKey = none ∨ ∀ ms, co.evaluate ms = none)
    (hfuel : 1 ≤ cfg.maxToolIterations) :
    (runTurn cfg co history message st).result.guardrailVerdict = none ∧
    (∀ v : GuardrailVerdict,
      (runTurn cfg co history message st).result.guardrailVerdict ≠ some v) ∧
    1 ≤ (runTurn cfg co history message st).llmCalls := by
  have hpre : preVerdictOf cfg co message = none := by
    unfold preVerdictOf
    by_cases he : cfg.guardrailEnabled = true <;>
      simp [he, check_interaction_no_verdict cfg.lakeraApiKey co.evaluate _ hfail]
  have hnb : verdictBlocks (preVerdictOf cfg co message) cfg.blockingMode = false := by
    simp [hpre, verdictBlocks]
  have hv : (runTurn cfg co history message st).result.guardrailVerdict = none := by
    cases hans : (toolLoop co.complete co.execute cfg.maxToolIterations
        (assembleMessages cfg co history message)).answer with
    | none =>
        rw [runTurn_cap_eq cfg co history message st hnb hans]
        simpa using hpre
    | some candidate =>
        rw [runTurn_answer_eq cfg co history message st candidate hnb hans]
        have hpost : postVerdictOf cfg co message candidate = none := by
          unfold postVerdictOf
          by_cases he : cfg.guardrailEnabled = true <;>
            simp [he, check_interaction_no_verdict cfg.lakeraApiKey co.evaluate _ hfail]
        simp [hpost, hpre, overwriteVerdict]
  refine ⟨hv, ?_, ?_⟩
  · intro v h
    rw [hv] at h
    cases h
  · rw [(runTurn_not_blocked_loop cfg co history message st hnb).2]
    exact toolLoop_llmCalls_pos co.complete co.execute cfg.maxToolIterations _ hfuel

def cfgC6 : RuntimeConfig :=
  { systemPrompt := "sys", guardrailEnabled := true, blockingMode := true,
    lakeraApiKey := none, maxToolIterations := 2 }

/-- Guardrail enabled but no API key configured; the vendor would flag, yet
no call can be made. -/
def coC6 : Collaborators :=
  { retrieve := fun _ => some [],
    evaluate := fun _ => some flaggedVerdict,
    complete := fun _ => LLMOutcome.finalAnswer "answer",
    execute := fun _ _ =>
      { status := ToolStatus.success, contentString := "ok", raw := "ok" } }

/-- Witness for C6 at a concrete keyless turn: the verdict is null, is not
the evaluated-and-clean verdict, and the LLM was still called. -/
theorem c6_guardrail_failure_nonfatal_witness :
    (runTurn cfgC6 coC6 [] "hi" none).result.guardrailVerdict = none ∧
    (runTurn cfgC6 coC6 [] "hi" none).result.guardrailVerdict ≠
      some { flagged := false, perDetector := [] } ∧
    1 ≤ (runTurn cfgC6 coC6 [] "hi" none).llmCalls := by
  have h := c6_guardrail_failure_nonfatal cfgC6 coC6 [] "hi" none (Or.inl rfl) (by decide)
  exact ⟨h.1, h.2.1 { flagged := false, perDetector := [] }, h.2.2⟩

/-- C7: the tool-calling sub-loop is bounded — a turn makes at most
`maxToolIterations` LLM calls — and when the loop hits its cap without a
final answer (and the pre-check did not block), the turn returns the fixed
unable-to-complete notice instead of looping unbounded. -/
theorem c7_loop_bounded (cfg : RuntimeConfig) (co : Collaborators)
    (history : List ConversationTurn) (message : String)
    (st : Option GuardrailVerdict) :
    (runTurn cfg co history message st).llmCalls ≤ cfg.maxToolIterations ∧
    (verdictBlocks (preVerdictOf cfg co message) cfg.blockingMode = false →
      (toolLoop co.complete co.execute cfg.maxToolIterations
        (assembleMessages cfg co history message)).answer = none →
      (runTurn cfg co history message st).result.response = unableToCompleteNotice) := by
  constructor
  · by_cases hb : verdictBlocks (preVerdictOf cfg co message) cfg.blockingMode = true
    · rw [runTurn_blocked_eq cfg co history message st hb]
      simp
    · rw [(runTurn_not_blocked_loop cfg co history message st
        (Bool.eq_false_iff.mpr hb)).2]
      exact toolLoop_llmCalls_le co.complete co.execute cfg.maxToolIterations _
  · intro hnb hans
    rw [runTurn_cap_eq cfg co history message st hnb hans]

def reqC7 : ToolRequest := { id := "c7", name := "loop", argumentsRaw := "x" }

def cfgC7 : RuntimeConfig :=
  { systemPrompt := "sys", guardrailEnabled := false, blockingMode := false,
    lakeraApiKey := none, maxToolIterations := 2 }

/-- Collaborators whose LLM keeps requesting tools forever, so the cap is
hit. -/
def coC7 : Collaborators :=
  { retrieve := fun _ => some [],
    evaluate := fun _ => none,
    complete := fun _ => LLMOutcome.toolCalls [reqC7],
    execute := fun _ _ =>
      { status := ToolStatus.success, contentString := "ok", raw := "ok" } }

/-- Witness for C7 at a concrete non-converging turn. -/
theorem c7_loop_bounded_witness :
    (runTurn cfgC7 coC7 [] "go" none).llmCalls ≤ cfgC7.maxToolIterations ∧
    (runTurn cfgC7 coC7 [] "go" none).result.response = unableToCompleteNotice :=
  ⟨(c7_loop_bounded cfgC7 coC7 [] "go" none).1,
   (c7_loop_bounded cfgC7 coC7 [] "go" none).2 rfl rfl⟩

def cfgC8 : RuntimeConfig :=
  { systemPrompt := "sys", guardrailEnabled := true, blockingMode := true,
    lakeraApiKey := some "key", maxToolIterations := 3 }

/-- Collaborators with one retrieval hit and an always-flagging guardrail:
the pre-check blocks in blocking mode. -/
def coC8 : Collaborators :=
  { retrieve := fun _ => some [{ text := "doc text", source := "docA" }],
    evaluate := fun _ => some flaggedVerdict,
    complete := fun _ => LLMOutcome.finalAnswer "hi",
    execute := fun _ _ =>
      { status := ToolStatus.success, contentString := "ok", raw := "ok" } }

/-- C8 counterexample: on a turn short-circuited by a flagged pre-check in
blocking mode, one retrieval context turn was included in message assembly,
yet the returned citations list is empty — not one label per context turn. -/
theorem c8_counterexample :
    contextTurn { text := "doc text", source := "docA" }
        ∈ assembleMessages cfgC8 coC8 [] "hello" ∧
    (retrievedChunks coC8 "hello").map (fun c => c.source) = ["docA"] ∧
    (runTurn cfgC8 coC8 [] "hello" none).result.citations ≠
      (retrievedChunks coC8 "hello").map (fun c => c.source) := by
  refine ⟨by simp [assembleMessages, retrievedChunks, coC8], rfl, ?_⟩
  have h : (runTurn cfgC8 coC8 [] "hello" none).result.citations = [] := rfl
  rw [h]
  decide

/-- C8 (amended): on every turn not short-circuited by a flagged pre-check
in blocking mode, the citations list contains exactly one provenance label
per retrieval context turn included in message assembly, in the same order,
regardless of whether the LLM used the context and regardless of the
post-check outcome. -/
theorem c8_citations_match_retrieval (cfg : RuntimeConfig) (co : Collaborators)
    (history : List ConversationTurn) (message : String)
    (st : Option GuardrailVerdict)
    (hnb : verdictBlocks (preVerdictOf cfg co message) cfg.blockingMode = false) :
    (runTurn cfg co history message st).result.citations =
      (retrievedChunks co message).map (fun c => c.source) := by
  cases hans : (toolLoop co.complete co.execute cfg.maxToolIterations
      (assembleMessages cfg co history message)).answer with
  | none =>
      rw [runTurn_cap_eq cfg co history message st hnb hans]
      rfl
  | some candidate =>
      rw [runTurn_answer_eq cfg co history message st candidate hnb hans]
      rfl

def cfgC8b : RuntimeConfig :=
  { systemPrompt := "sys", guardrailEnabled := true, blockingMode := true,
    lakeraApiKey := some "key", maxToolIterations := 3 }

/-- Same retrieval hit as `coC8`, but the guardrail flags only message sets
containing an assistant turn: the pre-check passes and the post-check flags
and blocks, yet citations survive. -/
def coC8b : Collaborators :=
  { retrieve := fun _ => some [{ text := "doc text", source := "docA" }],
    evaluate := fun msgs =>
      some { flagged := msgs.any (fun m => m.role == Role.assistant),
             perDetector := [] },
    complete := fun _ => LLMOutcome.finalAnswer "hi",
    execute := fun _ _ =>
      { status := ToolStatus.success, contentString := "ok", raw := "ok" } }

/-- Witness for the amended C8: a post-check-blocked turn still reports the
retrieval citation. -/
theorem c8_citations_match_retrieval_witness :
    (runTurn cfgC8b coC8b [] "hello" none).result.citations =
      (retrievedChunks coC8b "hello").map (fun c => c.source) :=
  c8_citations_match_retrieval cfgC8b coC8b [] "hello" none rfl

/-- When the guardrail is enabled with a key and every vendor call yields a
verdict, the last-verdict cell after a turn does not depend on its value
before the turn: the turn's own guardrail calls overwrite it. -/
theorem runTurn_lastVerdict_indep (cfg : RuntimeConfig) (co : Collaborators)
    (history : List ConversationTurn) (message : String)
    (hen : cfg.guardrailEnabled = true) (k : String)
    (hkey : cfg.lakeraApiKey = some k)
    (hev : ∀ ms, (co.evaluate ms).isSome)
    (s s' : Option GuardrailVerdict) :
    (runTurn cfg co history message s).lastVerdict =
      (runTurn cfg co history message s').lastVerdict ∧
    ((runTurn cfg co history message s).lastVerdict).isSome := by
  obtain ⟨v, hv⟩ := Option.isSome_iff_exists.mp (hev (preCheckMessages message))
  have hpre : preVerdictOf cfg co message = some v := by
    simp [preVerdictOf, hen, check_interaction, hkey, hv]
  have hover : ∀ t : Option GuardrailVerdict,
      overwriteVerdict t (preVerdictOf cfg co message) = some v := by
    intro t
    simp [hpre, overwriteVerdict]
  by_cases hb : verdictBlocks (preVerdictOf cfg co message) cfg.blockingMode = true
  · rw [runTurn_blocked_eq cfg co history message s hb,
      runTurn_blocked_eq cfg co history message s' hb]
    simp [hover]
  · have hb' : verdictBlocks (preVerdictOf cfg co message) cfg.blockingMode = false :=
      Bool.eq_false_iff.mpr hb
    cases hans : (toolLoop co.complete co.execute cfg.maxToolIterations
        (assembleMessages cfg co history message)).answer with
    | none =>
        rw [runTurn_cap_eq cfg co history message s hb' hans,
          runTurn_cap_eq cfg co history message s' hb' hans]
        simp [hover]
    | some candidate =>
        rw [runTurn_answer_eq cfg co history message s candidate hb' hans,
          runTurn_answer_eq cfg co history message s' candidate hb' hans]
        obtain ⟨w, hw⟩ := Option.isSome_iff_exists.mp
          (hev (postCheckMessages message candidate))
        have hpost : postVerdictOf cfg co message candidate = some w := by
          simp [postVerdictOf, hen, check_interaction, hkey, hw]
        simp [hover, hpost, overwriteVerdict]

/-- C9: the stored last verdict is a single process-wide value overwritten
by every guardrail call: after two sequential turns in which the second
turn's guardrail produces verdicts, `GET /lakera/last` returns exactly what
the second turn stored — the same value as if the first turn had never
written anything — and a verdict is indeed recorded. -/
theorem c9_last_verdict_overwrite (cfg1 : RuntimeConfig) (co1 : Collaborators)
    (h1 : List ConversationTurn) (m1 : String)
    (cfg2 : RuntimeConfig) (co2 : Collaborators)
    (h2 : List ConversationTurn) (m2 : String)
    (s0 : Option GuardrailVerdict)
    (hen : cfg2.guardrailEnabled = true) (k : String)
    (hkey : cfg2.lakeraApiKey = some k)
    (hev : ∀ ms, (co2.evaluate ms).isSome) :
    getLastLakeraResult
        ((runTurn cfg2 co2 h2 m2 ((runTurn cfg1 co1 h1 m1 s0).lastVerdict)).lastVerdict) =
      getLastLakeraResult ((runTurn cfg2 co2 h2 m2 none).lastVerdict) ∧
    (getLastLakeraResult
        ((runTurn cfg2 co2 h2 m2 ((runTurn cfg1 co1 h1 m1 s0).lastVerdict)).lastVerdict)).isSome := by
  have h := runTurn_lastVerdict_indep cfg2 co2 h2 m2 hen k hkey hev
    ((runTurn cfg1 co1 h1 m1 s0).lastVerdict) none
  exact ⟨h.1, h.2⟩

/-- An always-clean guardrail verdict, for concrete examples. -/
def cleanVerdict : GuardrailVerdict := { flagged := false, perDetector := [] }

def cfgC9a : RuntimeConfig :=
  { systemPrompt := "sys", guardrailEnabled := true, blockingMode := false,
    lakeraApiKey := some "key", maxToolIterations := 2 }

/-- First turn: guardrail produces a clean verdict. -/
def coC9a : Collaborators :=
  { retrieve := fun _ => some [],
    evaluate := fun _ => some cleanVerdict,
    complete := fun _ => LLMOutcome.finalAnswer "first",
    execute := fun _ _ =>
      { status := ToolStatus.success, contentString := "ok", raw := "ok" } }

def cfgC9b : RuntimeConfig :=
  { systemPrompt := "sys", guardrailEnabled := true, blockingMode := false,
    lakeraApiKey := some "key", maxToolIterations := 2 }

/-- Second turn: guardrail produces a flagged verdict. -/
def coC9b : Collaborators :=
  { retrieve := fun _ => some [],
    evaluate := fun _ => some flaggedVerdict,
    complete := fun _ => LLMOutcome.finalAnswer "second",
    execute := fun _ _ =>
      { status := ToolStatus.success, contentString := "ok", raw := "ok" } }

/-- Witness for C9 at two concrete sequential turns. -/
theorem c9_last_verdict_overwrite_witness :
    getLastLakeraResult
        ((runTurn cfgC9b coC9b [] "m2" ((runTurn cfgC9a coC9a [] "m1" none).lastVerdict)).lastVerdict) =
      getLastLakeraResult ((runTurn cfgC9b coC9b [] "m2" none).lastVerdict) ∧
    (getLastLakeraResult
        ((runTurn cfgC9b coC9b [] "m2" ((runTurn cfgC9a coC9a [] "m1" none).lastVerdict)).lastVerdict)).isSome :=
  c9_last_verdict_overwrite cfgC9a coC9a [] "m1" cfgC9b coC9b [] "m2" none
    rfl "key" rfl (fun _ => rfl)

/-- C10: in the chat widget, the stored last guardrail verdict is replaced
exactly when the `/chat` response carries a `lakera` field; when the field
is absent the stored verdict — and hence the violation indicator — is
unchanged and keeps reflecting the stale verdict of an earlier turn. -/
theorem c10_widget_stale_verdict (prev : Option LakeraResult) (resp : ChatResponse) :
    updateLastLakeraResult prev resp =
      (if resp.lakera.isSome then resp.lakera else prev) ∧
    (resp.lakera = none →
      updateLastLakeraResult prev resp = prev ∧
      hasLakeraViolations (updateLastLakeraResult prev resp) =
        hasLakeraViolations prev) := by
  cases h : resp.lakera <;> simp [updateLastLakeraResult, h]

/-- Witness for C10: a response without a `lakera` field leaves a stored
flagged verdict, and the violation indicator, untouched. -/
theorem c10_widget_stale_verdict_witness :
    updateLastLakeraResult (some { flagged := true, breakdown := none })
        { response := "hi", tool_traces := [], lakera := none } =
      some { flagged := true, breakdown := none } ∧
    hasLakeraViolations
        (updateLastLakeraResult (some { flagged := true, breakdown := none })
          { response := "hi", tool_traces := [], lakera := none }) =
      hasLakeraViolations (some { flagged := true, breakdown := none }) :=
  (c10_widget_stale_verdict (some { flagged := true, breakdown := none })
    { response := "hi", tool_traces := [], lakera := none }).2 rfl
